import Mathlib

/-!
Verification of the sentiment scoring core of SentimentFinance
(`src/src/sentiment_analyzer.py`, class `SentimentAnalyzer`).

Modelling conventions:
* Python floats are idealised as exact rationals (`ℚ`); all the formulas in
  the module (weighted sums, ratios of small counts, fixed weights 0.4/0.4/0.2)
  are stated by the specification in exact arithmetic.
* External libraries are oracles passed in as function parameters:
  - the TextBlob model (`blob.sentiment`) is `tbModel : String → Except Unit (ℚ × ℚ)`
    returning (polarity, subjectivity), `.error` when the library raises;
  - the VADER model (`analyzer.polarity_scores`) is
    `vdModel : String → Except Unit VaderScores`, `.error` when it raises;
  - NLTK `word_tokenize` is `wordTokenize : String → Except String (List String)`
    (its exceptions are NOT caught inside `_analyze_financial_keywords`, so they
    propagate out of `analyze_sentiment`, hence the `Except`);
  - the NLTK stop-word set is `stopWords : List String`;
  - the two `re.sub(..., '', text)` calls of `_preprocess_text` (URL and e-mail
    patterns) are `subUrl, subEmail : String → String`; substitution with an
    empty replacement only deletes characters, captured by the `Erasure`
    predicate below.
* Python dicts holding the results are structures.  The per-method dicts and
  the top-level dict use different key names in Python
  (`score`/`label` vs `sentiment_score`/`sentiment_label`); both are modelled
  with fields `score`/`label` here.  Method-specific extra numeric fields
  (`subjectivity`, `pos`/`neu`/`neg`, keyword counts) are kept in an
  association list `extra` so that the zero-hit sentinel (which has none) is
  distinguishable from a computed neutral result.
* Character predicates (`\w`, `\s`, `str.isalpha`, `str.lower`, `str.strip`)
  are idealised at the ASCII level.
-/

namespace SentimentFinance

/-- The three sentiment labels produced by every scorer. -/
inductive Label where
  | positive
  | negative
  | neutral
deriving DecidableEq, Repr

/-- A per-method result dict: `{'method', 'score', 'confidence', 'label', ...extras}`.
`score` is `Option ℚ` because the combiner explicitly guards
`result['score'] is not None`. -/
structure MethodResult where
  method : String
  score : Option ℚ
  confidence : ℚ
  label : Label
  extra : List (String × ℚ)
deriving DecidableEq, Repr

/-- `_empty_sentiment_result(method)`: the neutral sentinel dict
`{'method': method, 'score': 0.0, 'confidence': 0.0, 'label': 'neutral'}`.
Note the score is `0.0`, not `None`. -/
def empty_sentiment_result (method : String) : MethodResult :=
  { method := method, score := some 0, confidence := 0, label := .neutral, extra := [] }

/-- The dict returned by `analyze_sentiment` / `_combine_sentiment_results`:
either the combined dict (method `"combined"`, `sentiment_score`,
`confidence`, `sentiment_label`, `individual_results`) or, on the degenerate
paths, the `_empty_sentiment_result` dict (whose `individual` is `none`). -/
structure AnalysisOutput where
  method : String
  score : ℚ
  confidence : ℚ
  label : Label
  individual : Option (MethodResult × MethodResult × MethodResult)
deriving DecidableEq, Repr

/-- `_empty_sentiment_result(method)` as it appears at the top level
(returned directly by `analyze_sentiment` and by the zero-weight branch of
`_combine_sentiment_results`). -/
def emptyAnalysis (method : String) : AnalysisOutput :=
  { method := method, score := 0, confidence := 0, label := .neutral, individual := none }

/-! ### Character-level helpers (ASCII idealisation of Python `re` / `str`) -/

/-- Python regex `\s` (ASCII): space, tab, newline, carriage return,
vertical tab, form feed. -/
def pyIsSpace (c : Char) : Bool :=
  c = ' ' || c = '\t' || c = '\n' || c = '\x0d' || c = '\x0b' || c = '\x0c'

/-- Python regex `\w` (ASCII): letters, digits, underscore. -/
def pyIsWord (c : Char) : Bool :=
  c.isAlphanum || c = '_'

/-- The character class kept by `re.sub(r'[^\w\s.,!?;:-]', '', text)`:
word characters, whitespace, and the punctuation `. , ! ? ; : -`. -/
def keptChar (c : Char) : Bool :=
  pyIsWord c || pyIsSpace c ||
    c = '.' || c = ',' || c = '!' || c = '?' || c = ';' || c = ':' || c = '-'

/-- Specification-side test: the string contains two adjacent whitespace
characters, i.e. its internal whitespace is NOT collapsed to single
spaces. -/
def hasAdjacentWs : List Char → Bool
  | c1 :: c2 :: rest => (pyIsSpace c1 && pyIsSpace c2) || hasAdjacentWs (c2 :: rest)
  | _ => false

/-- `str.strip()`: drop leading and trailing whitespace. -/
def pyStripList (l : List Char) : List Char :=
  (l.dropWhile pyIsSpace).rdropWhile pyIsSpace

/-- `str.strip()` on strings. -/
def pyStrip (s : String) : String :=
  String.mk (pyStripList s.data)

/-- `re.sub(r'\s+', ' ', text)`: replace every maximal run of whitespace by a
single space.  The boolean flag records whether the previous character was
part of a whitespace run. -/
def collapseWsAux : Bool → List Char → List Char
  | _, [] => []
  | inRun, c :: rest =>
    if pyIsSpace c then
      if inRun then collapseWsAux true rest
      else ' ' :: collapseWsAux true rest
    else c :: collapseWsAux false rest

/-- `re.sub(r'\s+', ' ', text)` on strings. -/
def collapseWs (s : String) : String :=
  String.mk (collapseWsAux false s.data)

/-- A string transformer that only deletes characters (keeping order): the
behaviour of `re.sub(pattern, '', text)` for any pattern. -/
def Erasure (f : String → String) : Prop :=
  ∀ s : String, (f s).data.Sublist s.data

/-- `_preprocess_text(text)`: URL removal, e-mail removal, whitespace
collapse, special-character removal, strip — in that order.  The two regex
substitutions with empty replacement are the parameters `subUrl`, `subEmail`. -/
def preprocess_text (subUrl subEmail : String → String) (text : String) : String :=
  let t1 := subUrl text
  let t2 := subEmail t1
  let t3 := collapseWs t2
  let t4 := String.mk (t3.data.filter keptChar)
  pyStrip t4

/-! ### The three scorers -/

/-- `_analyze_with_textblob(text)` given the outcome of the TextBlob model on
that text: on success, score = polarity, confidence = 1 − subjectivity, label
thresholded at ±0.1; on an exception, the neutral sentinel tagged
`'textblob'`. -/
def analyze_with_textblob (modelOutcome : Except Unit (ℚ × ℚ)) : MethodResult :=
  match modelOutcome with
  | .error _ => empty_sentiment_result "textblob"
  | .ok (polarity, subjectivity) =>
    let label : Label :=
      if polarity > 1/10 then .positive
      else if polarity < -(1/10) then .negative
      else .neutral
    { method := "textblob", score := some polarity, confidence := 1 - subjectivity,
      label := label, extra := [("subjectivity", subjectivity)] }

/-- The dict returned by VADER's `polarity_scores`. -/
structure VaderScores where
  compound : ℚ
  pos : ℚ
  neu : ℚ
  neg : ℚ
deriving DecidableEq, Repr

/-- `_analyze_with_vader(text)` given the outcome of the VADER model: on
success, score = compound (labels at ±0.05), confidence = max(pos, neu, neg);
on an exception, the neutral sentinel tagged `'vader'`. -/
def analyze_with_vader (modelOutcome : Except Unit VaderScores) : MethodResult :=
  match modelOutcome with
  | .error _ => empty_sentiment_result "vader"
  | .ok s =>
    let label : Label :=
      if s.compound ≥ 1/20 then .positive
      else if s.compound ≤ -(1/20) then .negative
      else .neutral
    { method := "vader", score := some s.compound,
      confidence := max s.pos (max s.neu s.neg), label := label,
      extra := [("pos", s.pos), ("neu", s.neu), ("neg", s.neg)] }

/-- The fixed positive financial lexicon (`self.financial_keywords['positive']`). -/
def positiveKeywords : List String :=
  ["profit", "growth", "increase", "gain", "rise", "bull", "bullish",
   "up", "surge", "rally", "outperform", "beat", "exceed", "strong",
   "robust", "solid", "record", "milestone", "breakthrough", "success"]

/-- The fixed negative financial lexicon (`self.financial_keywords['negative']`). -/
def negativeKeywords : List String :=
  ["loss", "decline", "fall", "drop", "bear", "bearish", "down",
   "crash", "plunge", "underperform", "miss", "weak", "poor",
   "disappointing", "struggle", "concern", "risk", "uncertainty"]

/-- Python `str.isalpha()` (ASCII idealisation): non-empty and all
alphabetic. -/
def pyIsAlphaStr (s : String) : Bool :=
  !s.isEmpty && s.data.all Char.isAlpha

/-- The keyword-counting loop of `_analyze_financial_keywords`:
`if token in positive: positive_count += 1 elif token in negative:
negative_count += 1`. -/
def countKeywords : List String → Nat × Nat
  | [] => (0, 0)
  | t :: rest =>
    let (p, n) := countKeywords rest
    if t ∈ positiveKeywords then (p + 1, n)
    else if t ∈ negativeKeywords then (p, n + 1)
    else (p, n)

/-- `_analyze_financial_keywords(text)` given the tokenizer oracle and the
stop-word set: lowercase, tokenize (tokenizer exceptions propagate — the call
is not inside a `try`), keep alphabetic non-stop-word tokens, count lexicon
hits; zero hits yields the sentinel, otherwise the ratio score with ±0.2
label thresholds and confidence `min(total/10, 1)`. -/
def analyze_financial_keywords (wordTokenize : String → Except String (List String))
    (stopWords : List String) (text : String) : Except String MethodResult := do
  let textLower := text.toLower
  let tokens ← wordTokenize textLower
  let tokens := tokens.filter (fun t => !(t ∈ stopWords) && pyIsAlphaStr t)
  let (positive_count, negative_count) := countKeywords tokens
  let total_keywords := positive_count + negative_count
  if total_keywords = 0 then
    return empty_sentiment_result "financial_keywords"
  else
    let score : ℚ := ((positive_count : ℚ) - negative_count) / total_keywords
    let label : Label :=
      if score > 1/5 then .positive
      else if score < -(1/5) then .negative
      else .neutral
    let confidence : ℚ := min ((total_keywords : ℚ) / 10) 1
    return { method := "financial_keywords", score := some score,
             confidence := confidence, label := label,
             extra := [("positive_keywords", positive_count),
                       ("negative_keywords", negative_count),
                       ("total_keywords", total_keywords)] }

/-! ### The consensus combiner -/

/-- The fixed weight table of `_combine_sentiment_results`:
`{'textblob': 0.4, 'vader': 0.4, 'financial_keywords': 0.2}`;
`none` for a method not in the dict. -/
def methodWeight (method : String) : Option ℚ :=
  if method = "textblob" then some (2/5)
  else if method = "vader" then some (2/5)
  else if method = "financial_keywords" then some (1/5)
  else none

/-- The accumulator of the combiner loop: weighted score sum, weighted
confidence sum, total weight, and the per-label vote tally
`{'positive': 0, 'negative': 0, 'neutral': 0}`. -/
structure CombineAcc where
  total_score : ℚ
  total_confidence : ℚ
  total_weight : ℚ
  votePos : ℚ
  voteNeg : ℚ
  voteNeu : ℚ
deriving DecidableEq, Repr

/-- The initial accumulator (all sums and votes zero). -/
def combineInit : CombineAcc :=
  { total_score := 0, total_confidence := 0, total_weight := 0,
    votePos := 0, voteNeg := 0, voteNeu := 0 }

/-- One iteration of the combiner loop: if the method is in the weight table
and its score is not `None`, accumulate `weight·score`, `weight·confidence`,
`weight`, and add `weight` to the vote for the result's own label. -/
def combineStep (acc : CombineAcc) (result : MethodResult) : CombineAcc :=
  match methodWeight result.method, result.score with
  | some weight, some s =>
    { total_score := acc.total_score + s * weight
      total_confidence := acc.total_confidence + result.confidence * weight
      total_weight := acc.total_weight + weight
      votePos := acc.votePos + (if result.label = .positive then weight else 0)
      voteNeg := acc.voteNeg + (if result.label = .negative then weight else 0)
      voteNeu := acc.voteNeu + (if result.label = .neutral then weight else 0) }
  | _, _ => acc

/-- Python's `max(label_votes, key=label_votes.get)` over the dict with
insertion order positive, negative, neutral: iterate in that order and
replace the current best only on a strictly greater value, so the first key
attaining the maximum wins. -/
def maxVoteLabel (vp vneg vneu : ℚ) : Label :=
  if vneg > vp then (if vneu > vneg then .neutral else .negative)
  else (if vneu > vp then .neutral else .positive)

/-- `_combine_sentiment_results(textblob_result, vader_result, keyword_result)`:
fold the loop over the three results; if the total weight is zero return the
sentinel tagged `'combined'`, otherwise the normalised score and confidence
with the majority-vote label and the three original results attached. -/
def combine_sentiment_results (textblob_result vader_result keyword_result :
    MethodResult) : AnalysisOutput :=
  let acc := [textblob_result, vader_result, keyword_result].foldl combineStep combineInit
  if acc.total_weight = 0 then
    emptyAnalysis "combined"
  else
    { method := "combined"
      score := acc.total_score / acc.total_weight
      confidence := acc.total_confidence / acc.total_weight
      label := maxVoteLabel acc.votePos acc.voteNeg acc.voteNeu
      individual := some (textblob_result, vader_result, keyword_result) }

/-! ### The pipeline -/

/-- The external collaborators of one analysis call (see the header comment). -/
structure Oracles where
  subUrl : String → String
  subEmail : String → String
  tbModel : String → Except Unit (ℚ × ℚ)
  vdModel : String → Except Unit VaderScores
  wordTokenize : String → Except String (List String)
  stopWords : List String

/-- `analyze_sentiment(text)`: empty or whitespace-only text short-circuits to
the generic sentinel (`'unknown'`); otherwise preprocess, run the three
scorers on the cleaned text and combine.  The only uncaught exception source
is the tokenizer inside the keyword scorer, hence the `Except`. -/
def analyze_sentiment (o : Oracles) (text : String) : Except String AnalysisOutput := do
  if pyStrip text = "" then
    return emptyAnalysis "unknown"
  else
    let cleaned_text := preprocess_text o.subUrl o.subEmail text
    let textblob_result := analyze_with_textblob (o.tbModel cleaned_text)
    let vader_result := analyze_with_vader (o.vdModel cleaned_text)
    let keyword_result ← analyze_financial_keywords o.wordTokenize o.stopWords cleaned_text
    return combine_sentiment_results textblob_result vader_result keyword_result

/-- One entry of the list built by `analyze_batch`: the result dict with
`text_index` set, and the `error` string present only on the exception
path. -/
structure BatchItem where
  text_index : Nat
  result : AnalysisOutput
  error : Option String
deriving DecidableEq, Repr

/-- How `analyze_batch` handles position `i`: the `try` body on success, the
`except` branch (sentinel tagged `'error'` with the error recorded) on an
exception. -/
def batchItem (o : Oracles) (i : Nat) (text : String) : BatchItem :=
  match analyze_sentiment o text with
  | .ok result => { text_index := i, result := result, error := none }
  | .error e => { text_index := i, result := emptyAnalysis "error", error := some e }

/-- The loop of `analyze_batch(texts)`, carrying the running index. -/
def analyzeBatchFrom (o : Oracles) : Nat → List String → List BatchItem
  | _, [] => []
  | i, text :: rest => batchItem o i text :: analyzeBatchFrom o (i + 1) rest

/-- `analyze_batch(texts)`: analyze each text in order with `enumerate`,
isolating per-item exceptions. -/
def analyze_batch (o : Oracles) (texts : List String) : List BatchItem :=
  analyzeBatchFrom o 0 texts

/-! ### Specification-side vocabulary for the combiner's vote -/

/-- The vote a label receives when three results with labels `ltb`, `lvd`,
`lkw` (all active) each vote their own label with weights 0.4, 0.4, 0.2. -/
def labelVotes (ltb lvd lkw : Label) (l : Label) : ℚ :=
  (if ltb = l then 2/5 else 0) + (if lvd = l then 2/5 else 0) +
    (if lkw = l then 1/5 else 0)

/-- Position of a label in the tie-break enumeration order
positive, negative, neutral. -/
def labelOrderIdx : Label → Nat
  | .positive => 0
  | .negative => 1
  | .neutral => 2

/-- The vote tally read at a given label. -/
def voteAt (vp vneg vneu : ℚ) : Label → ℚ
  | .positive => vp
  | .negative => vneg
  | .neutral => vneu

/-- Specification-side hit count of the keyword scorer: among the tokens
that are alphabetic and not stop words, how many are in the positive lexicon
and how many are in the negative lexicon (a token in both lexicons counts as
positive only, mirroring the `elif`). -/
def keywordHits (stopWords toks : List String) : Nat × Nat :=
  let kept := toks.filter (fun t => !(t ∈ stopWords) && pyIsAlphaStr t)
  (kept.countP (fun t => decide (t ∈ positiveKeywords)),
   kept.countP (fun t => !(decide (t ∈ positiveKeywords)) &&
     decide (t ∈ negativeKeywords)))

/-- Bounds required of one method result by the data-model invariant: score
(when non-null) in [-1, 1] and confidence in [0, 1]. -/
def ScoreBounded (m : MethodResult) : Prop :=
  (∀ s : ℚ, m.score = some s → -1 ≤ s ∧ s ≤ 1) ∧
    0 ≤ m.confidence ∧ m.confidence ≤ 1

/-- The result's label equals its own method's threshold rule applied to its
own score: ±0.1 for textblob, ±0.05 (inclusive) for vader, ±0.2 for the
financial keyword scorer. -/
def LabelConsistent (m : MethodResult) : Prop :=
  ∀ s : ℚ, m.score = some s →
    (m.method = "textblob" → m.label =
      (if s > 1/10 then Label.positive
       else if s < -(1/10) then Label.negative else Label.neutral)) ∧
    (m.method = "vader" → m.label =
      (if s ≥ 1/20 then Label.positive
       else if s ≤ -(1/20) then Label.negative else Label.neutral)) ∧
    (m.method = "financial_keywords" → m.label =
      (if s > 1/5 then Label.positive
       else if s < -(1/5) then Label.negative else Label.neutral))

/-! ### Helper lemmas -/

/-- `maxVoteLabel` picks a label of maximal vote, and every label strictly
earlier in the order positive, negative, neutral has a strictly smaller vote
(so the first label attaining the maximum wins). -/
theorem maxVoteLabel_spec (vp vneg vneu : ℚ) :
    voteAt vp vneg vneu (maxVoteLabel vp vneg vneu) = max vp (max vneg vneu) ∧
      ∀ l' : Label, labelOrderIdx l' < labelOrderIdx (maxVoteLabel vp vneg vneu) →
        voteAt vp vneg vneu l' < max vp (max vneg vneu) := by
  by_cases h1 : vneg > vp
  · by_cases h2 : vneu > vneg
    · have he : maxVoteLabel vp vneg vneu = .neutral := by
        simp [maxVoteLabel, h1, h2]
      have hm : max vp (max vneg vneu) = vneu := by
        rw [max_eq_right h2.le, max_eq_right (h1.trans h2).le]
      rw [he, hm]
      refine ⟨rfl, ?_⟩
      intro l' h
      cases l' with
      | positive => show vp < vneu; linarith
      | negative => show vneg < vneu; linarith
      | neutral => exact absurd h (by decide)
    · have he : maxVoteLabel vp vneg vneu = .negative := by
        simp [maxVoteLabel, h1, h2]
      have hm : max vp (max vneg vneu) = vneg := by
        rw [max_eq_left (not_lt.mp h2), max_eq_right h1.le]
      rw [he, hm]
      refine ⟨rfl, ?_⟩
      intro l' h
      cases l' with
      | positive => show vp < vneg; linarith
      | negative => exact absurd h (by decide)
      | neutral => exact absurd h (by decide)
  · have hvn : vneg ≤ vp := not_lt.mp h1
    by_cases h3 : vneu > vp
    · have he : maxVoteLabel vp vneg vneu = .neutral := by
        simp [maxVoteLabel, h1, h3]
      have hm : max vp (max vneg vneu) = vneu := by
        rw [max_eq_right (hvn.trans h3.le), max_eq_right h3.le]
      rw [he, hm]
      refine ⟨rfl, ?_⟩
      intro l' h
      cases l' with
      | positive => show vp < vneu; linarith
      | negative => show vneg < vneu; linarith
      | neutral => exact absurd h (by decide)
    · have he : maxVoteLabel vp vneg vneu = .positive := by
        simp [maxVoteLabel, h1, h3]
      have hm : max vp (max vneg vneu) = vp :=
        max_eq_left (max_le hvn (not_lt.mp h3))
      rw [he, hm]
      refine ⟨rfl, ?_⟩
      intro l' h
      cases l' with
      | positive => exact absurd h (by decide)
      | negative => exact absurd h (by decide)
      | neutral => exact absurd h (by decide)

/-- A result whose method is unknown to the weight table, or whose score is
`None`, leaves the combiner's accumulator unchanged. -/
theorem combineStep_inactive (acc : CombineAcc) (r : MethodResult)
    (h : methodWeight r.method = none ∨ r.score = none) :
    combineStep acc r = acc := by
  rcases h with h | h <;> cases hw : methodWeight r.method <;>
    cases hs : r.score <;> simp_all [combineStep]

/-- The head of `dropWhile p` never satisfies `p`. -/
theorem head?_dropWhile_neg (p : Char → Bool) (l : List Char) (c : Char)
    (h : (l.dropWhile p).head? = some c) : p c = false := by
  induction l with
  | nil => simp [List.dropWhile] at h
  | cons a rest ih =>
    by_cases hp : p a = true
    · rw [List.dropWhile_cons_of_pos hp] at h
      exact ih h
    · rw [List.dropWhile_cons_of_neg hp] at h
      simp only [List.head?_cons, Option.some.injEq] at h
      rw [← h]
      exact Bool.not_eq_true _ |>.mp hp

/-- Every character of the stripped list is a character of the list. -/
theorem mem_pyStripList (l : List Char) (c : Char) (h : c ∈ pyStripList l) :
    c ∈ l := by
  unfold pyStripList at h
  exact (List.dropWhile_suffix pyIsSpace).sublist.subset
    ((List.rdropWhile_prefix pyIsSpace _).sublist.subset h)

/-- The first character of the stripped list is not whitespace. -/
theorem pyStripList_head? (l : List Char) (c : Char)
    (h : (pyStripList l).head? = some c) : pyIsSpace c = false := by
  unfold pyStripList List.rdropWhile at h
  rw [List.head?_reverse] at h
  have hne : (l.dropWhile pyIsSpace).reverse.dropWhile pyIsSpace ≠ [] := by
    intro e
    rw [e] at h
    simp at h
  obtain ⟨s, hs⟩ := List.dropWhile_suffix (l := (l.dropWhile pyIsSpace).reverse)
    (p := pyIsSpace)
  have h2 : ((l.dropWhile pyIsSpace).reverse).getLast? = some c := by
    rw [← hs, List.getLast?_append_of_ne_nil _ hne]
    exact h
  rw [List.getLast?_reverse] at h2
  exact head?_dropWhile_neg pyIsSpace l c h2

/-- The last character of the stripped list is not whitespace. -/
theorem pyStripList_getLast? (l : List Char) (c : Char)
    (h : (pyStripList l).getLast? = some c) : pyIsSpace c = false := by
  unfold pyStripList List.rdropWhile at h
  rw [List.getLast?_reverse] at h
  exact head?_dropWhile_neg pyIsSpace _ c h

/-- After whitespace collapsing, every whitespace character is the single
space character. -/
theorem collapseWsAux_space (l : List Char) : ∀ (b : Bool) (c : Char),
    c ∈ collapseWsAux b l → pyIsSpace c = true → c = ' ' := by
  induction l with
  | nil => intro b c hc _; simp [collapseWsAux] at hc
  | cons a rest ih =>
    intro b c hc hs
    by_cases ha : pyIsSpace a = true
    · cases b with
      | true =>
        rw [collapseWsAux, if_pos ha, if_pos rfl] at hc
        exact ih true c hc hs
      | false =>
        rw [collapseWsAux, if_pos ha] at hc
        simp only [Bool.false_eq_true, if_false, List.mem_cons] at hc
        rcases hc with rfl | hc
        · rfl
        · exact ih true c hc hs
    · rw [collapseWsAux, if_neg ha] at hc
      rcases List.mem_cons.mp hc with rfl | hc
      · exact absurd hs ha
      · exact ih false c hc hs

/-- The character list of the preprocessed text, unfolded. -/
theorem preprocess_text_data (fu fe : String → String) (text : String) :
    (preprocess_text fu fe text).data =
      pyStripList ((collapseWsAux false (fe (fu text)).data).filter keptChar) :=
  rfl

/-- The keyword-counting loop computes exactly the two lexicon hit counts. -/
theorem countKeywords_eq (ts : List String) :
    countKeywords ts =
      (ts.countP (fun t => decide (t ∈ positiveKeywords)),
       ts.countP (fun t => !(decide (t ∈ positiveKeywords)) &&
         decide (t ∈ negativeKeywords))) := by
  induction ts with
  | nil => rfl
  | cons t rest ih =>
    simp only [countKeywords, ih, List.countP_cons]
    by_cases hp : t ∈ positiveKeywords
    · simp [hp]
    · by_cases hn : t ∈ negativeKeywords
      · simp [hp, hn]
      · simp [hp, hn]

/-- The textblob scorer always reports method `"textblob"` and a non-null
score; under the TextBlob output contract (polarity in [-1,1], subjectivity
in [0,1]) its result is bounded and its label follows its own rule. -/
theorem textblob_ok (out : Except Unit (ℚ × ℚ))
    (hb : ∀ pol subj : ℚ, out = .ok (pol, subj) →
      -1 ≤ pol ∧ pol ≤ 1 ∧ 0 ≤ subj ∧ subj ≤ 1) :
    (analyze_with_textblob out).method = "textblob" ∧
    (∃ s : ℚ, (analyze_with_textblob out).score = some s) ∧
    ScoreBounded (analyze_with_textblob out) ∧
    LabelConsistent (analyze_with_textblob out) := by
  cases out with
  | error e =>
    refine ⟨rfl, ⟨0, rfl⟩,
      ⟨?_, by norm_num [analyze_with_textblob, empty_sentiment_result],
        by norm_num [analyze_with_textblob, empty_sentiment_result]⟩, ?_⟩
    · intro s hs
      simp only [analyze_with_textblob, empty_sentiment_result,
        Option.some.injEq] at hs
      rw [← hs]
      norm_num
    · intro s hs
      simp only [analyze_with_textblob, empty_sentiment_result,
        Option.some.injEq] at hs
      refine ⟨fun _ => ?_, fun hm => ?_, fun hm => ?_⟩
      · rw [← hs]
        norm_num
        rfl
      · simp [analyze_with_textblob, empty_sentiment_result] at hm
      · simp [analyze_with_textblob, empty_sentiment_result] at hm
  | ok pr =>
    obtain ⟨pol, subj⟩ := pr
    obtain ⟨hb1, hb2, hb3, hb4⟩ := hb pol subj rfl
    refine ⟨rfl, ⟨pol, rfl⟩, ⟨?_, ?_, ?_⟩, ?_⟩
    · intro s hs
      simp only [analyze_with_textblob, Option.some.injEq] at hs
      rw [← hs]
      exact ⟨hb1, hb2⟩
    · show (0:ℚ) ≤ 1 - subj
      linarith
    · show (1:ℚ) - subj ≤ 1
      linarith
    · intro s hs
      simp only [analyze_with_textblob, Option.some.injEq] at hs
      refine ⟨fun _ => ?_, fun hm => ?_, fun hm => ?_⟩
      · rw [← hs]
        rfl
      · simp [analyze_with_textblob] at hm
      · simp [analyze_with_textblob] at hm

/-- The vader scorer always reports method `"vader"` and a non-null score;
under the VADER output contract (compound in [-1,1], proportions in [0,1])
its result is bounded and its label follows its own rule. -/
theorem vader_ok (out : Except Unit VaderScores)
    (hb : ∀ vs : VaderScores, out = .ok vs →
      (-1 ≤ vs.compound ∧ vs.compound ≤ 1) ∧ (0 ≤ vs.pos ∧ vs.pos ≤ 1) ∧
      (0 ≤ vs.neu ∧ vs.neu ≤ 1) ∧ (0 ≤ vs.neg ∧ vs.neg ≤ 1)) :
    (analyze_with_vader out).method = "vader" ∧
    (∃ s : ℚ, (analyze_with_vader out).score = some s) ∧
    ScoreBounded (analyze_with_vader out) ∧
    LabelConsistent (analyze_with_vader out) := by
  cases out with
  | error e =>
    refine ⟨rfl, ⟨0, rfl⟩,
      ⟨?_, by norm_num [analyze_with_vader, empty_sentiment_result],
        by norm_num [analyze_with_vader, empty_sentiment_result]⟩, ?_⟩
    · intro s hs
      simp only [analyze_with_vader, empty_sentiment_result,
        Option.some.injEq] at hs
      rw [← hs]
      norm_num
    · intro s hs
      simp only [analyze_with_vader, empty_sentiment_result,
        Option.some.injEq] at hs
      refine ⟨fun hm => ?_, fun _ => ?_, fun hm => ?_⟩
      · simp [analyze_with_vader, empty_sentiment_result] at hm
      · rw [← hs]
        norm_num
        rfl
      · simp [analyze_with_vader, empty_sentiment_result] at hm
  | ok vs =>
    obtain ⟨⟨hc1, hc2⟩, ⟨hp1, hp2⟩, ⟨hn1, hn2⟩, ⟨hg1, hg2⟩⟩ := hb vs rfl
    refine ⟨rfl, ⟨vs.compound, rfl⟩, ⟨?_, ?_, ?_⟩, ?_⟩
    · intro s hs
      simp only [analyze_with_vader, Option.some.injEq] at hs
      rw [← hs]
      exact ⟨hc1, hc2⟩
    · show (0:ℚ) ≤ max vs.pos (max vs.neu vs.neg)
      exact le_trans hp1 (le_max_left _ _)
    · show max vs.pos (max vs.neu vs.neg) ≤ 1
      exact max_le hp2 (max_le hn2 hg2)
    · intro s hs
      simp only [analyze_with_vader, Option.some.injEq] at hs
      refine ⟨fun hm => ?_, fun _ => ?_, fun hm => ?_⟩
      · simp [analyze_with_vader] at hm
      · rw [← hs]
        rfl
      · simp [analyze_with_vader] at hm

/-- Every successful keyword-scorer result reports method
`"financial_keywords"` and a non-null score, is bounded, and its label
follows its own rule. -/
theorem keyword_ok (wt : String → Except String (List String))
    (stops : List String) (text : String) (m : MethodResult)
    (h : analyze_financial_keywords wt stops text = .ok m) :
    m.method = "financial_keywords" ∧ (∃ s : ℚ, m.score = some s) ∧
    ScoreBounded m ∧ LabelConsistent m := by
  cases htok : wt text.toLower with
  | error e =>
    simp only [analyze_financial_keywords, htok, bind, Except.bind] at h
    cases h
  | ok toks =>
    simp only [analyze_financial_keywords, htok, bind, Except.bind] at h
    rcases hc : countKeywords
      (toks.filter (fun t => !(t ∈ stops) && pyIsAlphaStr t)) with ⟨p, n⟩
    rw [hc] at h
    by_cases h0 : p + n = 0
    · rw [if_pos h0] at h
      have hm : empty_sentiment_result "financial_keywords" = m := by
        simpa [pure, Except.pure] using h
      subst hm
      refine ⟨rfl, ⟨0, rfl⟩,
        ⟨?_, by norm_num [empty_sentiment_result],
          by norm_num [empty_sentiment_result]⟩, ?_⟩
      · intro s hs
        simp only [empty_sentiment_result, Option.some.injEq] at hs
        rw [← hs]
        norm_num
      · intro s hs
        simp only [empty_sentiment_result, Option.some.injEq] at hs
        refine ⟨fun hm => ?_, fun hm => ?_, fun _ => ?_⟩
        · simp [empty_sentiment_result] at hm
        · simp [empty_sentiment_result] at hm
        · rw [← hs]
          norm_num
          rfl
    · rw [if_neg h0] at h
      simp only [pure, Except.pure, Except.ok.injEq] at h
      subst h
      have htot : (0:ℚ) < ((p + n : ℕ) : ℚ) := by
        exact_mod_cast Nat.pos_of_ne_zero h0
      have hn0 : (0:ℚ) ≤ (n : ℚ) := Nat.cast_nonneg n
      have hp0 : (0:ℚ) ≤ (p : ℚ) := Nat.cast_nonneg p
      have hcast : ((p + n : ℕ) : ℚ) = (p : ℚ) + (n : ℚ) := by push_cast; ring
      refine ⟨rfl, ⟨_, rfl⟩, ⟨?_, ?_, ?_⟩, ?_⟩
      · intro s hs
        simp only [Option.some.injEq] at hs
        rw [← hs]
        constructor
        · rw [le_div_iff₀ htot]
          rw [hcast] at htot ⊢
          linarith
        · rw [div_le_one₀ htot]
          rw [hcast] at htot ⊢
          linarith
      · show (0:ℚ) ≤ min (((p + n : ℕ) : ℚ) / 10) 1
        refine le_min ?_ (by norm_num)
        positivity
      · show min (((p + n : ℕ) : ℚ) / 10) 1 ≤ 1
        exact min_le_right _ _
      · intro s hs
        simp only [Option.some.injEq] at hs
        refine ⟨fun hm => ?_, fun hm => ?_, fun _ => ?_⟩
        · simp at hm
        · simp at hm
        · rw [← hs]

/-- The batch loop produces one entry per input text. -/
theorem analyzeBatchFrom_length (o : Oracles) (texts : List String) :
    ∀ k : Nat, (analyzeBatchFrom o k texts).length = texts.length := by
  induction texts with
  | nil => intro k; rfl
  | cons t rest ih =>
    intro k
    simp [analyzeBatchFrom, ih (k + 1)]

/-- Entry `i` of the batch loop started at index `k` is the handling of text
`i` at position `k + i`. -/
theorem analyzeBatchFrom_getElem? (o : Oracles) (texts : List String) :
    ∀ k i : Nat, (analyzeBatchFrom o k texts)[i]? =
      (texts[i]?).map (fun t => batchItem o (k + i) t) := by
  induction texts with
  | nil => intro k i; simp [analyzeBatchFrom]
  | cons t rest ih =>
    intro k i
    cases i with
    | zero => simp [analyzeBatchFrom]
    | succ j =>
      simp only [analyzeBatchFrom, List.getElem?_cons_succ]
      rw [ih (k + 1) j]
      have he : k + 1 + j = k + (j + 1) := by omega
      rw [he]

/-- The textblob scorer's result always carries its method name and a
non-null score (the failure sentinel has score `0.0`, not `None`). -/
theorem textblob_shape (out : Except Unit (ℚ × ℚ)) :
    (analyze_with_textblob out).method = "textblob" ∧
    ∃ s : ℚ, (analyze_with_textblob out).score = some s := by
  cases out with
  | error e => exact ⟨rfl, 0, rfl⟩
  | ok pr =>
    obtain ⟨pol, subj⟩ := pr
    exact ⟨rfl, pol, rfl⟩

/-- The vader scorer's result always carries its method name and a non-null
score. -/
theorem vader_shape (out : Except Unit VaderScores) :
    (analyze_with_vader out).method = "vader" ∧
    ∃ s : ℚ, (analyze_with_vader out).score = some s := by
  cases out with
  | error e => exact ⟨rfl, 0, rfl⟩
  | ok vs => exact ⟨rfl, vs.compound, rfl⟩

/-- Three active results with the three recognised method names accumulate
total weight exactly 1 (= 0.4 + 0.4 + 0.2). -/
theorem combine_total_weight_one (tb vd kw : MethodResult) (s1 s2 s3 : ℚ)
    (htb : tb.method = "textblob") (hvd : vd.method = "vader")
    (hkw : kw.method = "financial_keywords")
    (h1 : tb.score = some s1) (h2 : vd.score = some s2)
    (h3 : kw.score = some s3) :
    ([tb, vd, kw].foldl combineStep combineInit).total_weight = 1 := by
  simp only [List.foldl, combineStep, combineInit, methodWeight, htb, hvd, hkw,
    h1, h2, h3, String.reduceEq, reduceIte]
  norm_num

/-- Closed form of the combiner on three active results carrying the three
recognised method names: total weight 1, weighted sums, majority-vote label. -/
theorem combine_active (tb vd kw : MethodResult) (s1 s2 s3 : ℚ)
    (htb : tb.method = "textblob") (hvd : vd.method = "vader")
    (hkw : kw.method = "financial_keywords")
    (h1 : tb.score = some s1) (h2 : vd.score = some s2) (h3 : kw.score = some s3) :
    combine_sentiment_results tb vd kw =
      { method := "combined"
        score := s1 * (2/5) + s2 * (2/5) + s3 * (1/5)
        confidence := tb.confidence * (2/5) + vd.confidence * (2/5) +
          kw.confidence * (1/5)
        label := maxVoteLabel
          (labelVotes tb.label vd.label kw.label .positive)
          (labelVotes tb.label vd.label kw.label .negative)
          (labelVotes tb.label vd.label kw.label .neutral)
        individual := some (tb, vd, kw) } := by
  unfold combine_sentiment_results
  simp only [List.foldl, combineStep, combineInit, methodWeight, htb, hvd, hkw,
    h1, h2, h3, labelVotes, String.reduceEq, if_true, if_false, reduceIte]
  norm_num

/-- Reading the tally built from `labelVotes` at a label gives `labelVotes`
of that label. -/
theorem voteAt_labelVotes (ltb lvd lkw l : Label) :
    voteAt (labelVotes ltb lvd lkw .positive) (labelVotes ltb lvd lkw .negative)
      (labelVotes ltb lvd lkw .neutral) l = labelVotes ltb lvd lkw l := by
  cases l <;> rfl

/-! ### Claims -/

/-- C1: for three method results named textblob, vader, financial_keywords
with non-null scores, the combined score is
(0.4·s_tb + 0.4·s_vd + 0.2·s_kw)/(0.4 + 0.4 + 0.2) and the combined
confidence is the analogous weighted confidence sum over the same total
weight. -/
theorem C1_combine_weighted_average (tb vd kw : MethodResult) (s1 s2 s3 : ℚ)
    (htb : tb.method = "textblob") (hvd : vd.method = "vader")
    (hkw : kw.method = "financial_keywords")
    (h1 : tb.score = some s1) (h2 : vd.score = some s2) (h3 : kw.score = some s3) :
    ∃ l : Label, combine_sentiment_results tb vd kw =
      { method := "combined"
        score := (2/5 * s1 + 2/5 * s2 + 1/5 * s3) / (2/5 + 2/5 + 1/5)
        confidence := (2/5 * tb.confidence + 2/5 * vd.confidence +
          1/5 * kw.confidence) / (2/5 + 2/5 + 1/5)
        label := l
        individual := some (tb, vd, kw) } := by
  refine ⟨maxVoteLabel
      (labelVotes tb.label vd.label kw.label .positive)
      (labelVotes tb.label vd.label kw.label .negative)
      (labelVotes tb.label vd.label kw.label .neutral), ?_⟩
  rw [combine_active tb vd kw s1 s2 s3 htb hvd hkw h1 h2 h3]
  simp only [AnalysisOutput.mk.injEq, and_true, true_and]
  constructor <;> · norm_num; ring

/-- Witness for C1 at a concrete triple of method results. -/
theorem C1_witness :
    ∃ l : Label, combine_sentiment_results
      { method := "textblob", score := some (1/2), confidence := 3/4,
        label := .positive, extra := [] }
      { method := "vader", score := some (1/4), confidence := 1/2,
        label := .positive, extra := [] }
      { method := "financial_keywords", score := some 1, confidence := 3/10,
        label := .positive, extra := [] } =
      { method := "combined"
        score := (2/5 * (1/2) + 2/5 * (1/4) + 1/5 * 1) / (2/5 + 2/5 + 1/5)
        confidence := (2/5 * (3/4) + 2/5 * (1/2) + 1/5 * (3/10)) / (2/5 + 2/5 + 1/5)
        label := l
        individual := some
          ({ method := "textblob", score := some (1/2), confidence := 3/4,
             label := .positive, extra := [] },
           { method := "vader", score := some (1/4), confidence := 1/2,
             label := .positive, extra := [] },
           { method := "financial_keywords", score := some 1, confidence := 3/10,
             label := .positive, extra := [] }) } :=
  C1_combine_weighted_average _ _ _ (1/2) (1/4) 1 rfl rfl rfl rfl rfl rfl

/-- C2: for three method results named textblob, vader, financial_keywords
with non-null scores, each votes its own label with weight 0.4/0.4/0.2; the
final label attains the maximal vote and every label strictly earlier in the
order positive, negative, neutral has a strictly smaller vote (so the first
label reaching the maximum wins); in particular labels
(positive, positive, negative) give final label positive. -/
theorem C2_final_label_majority_vote (tb vd kw : MethodResult) (s1 s2 s3 : ℚ)
    (htb : tb.method = "textblob") (hvd : vd.method = "vader")
    (hkw : kw.method = "financial_keywords")
    (h1 : tb.score = some s1) (h2 : vd.score = some s2) (h3 : kw.score = some s3) :
    ∃ s c : ℚ, ∃ l : Label,
      combine_sentiment_results tb vd kw =
        { method := "combined", score := s, confidence := c, label := l,
          individual := some (tb, vd, kw) } ∧
      labelVotes tb.label vd.label kw.label l =
        max (labelVotes tb.label vd.label kw.label .positive)
          (max (labelVotes tb.label vd.label kw.label .negative)
            (labelVotes tb.label vd.label kw.label .neutral)) ∧
      (∀ l' : Label, labelOrderIdx l' < labelOrderIdx l →
        labelVotes tb.label vd.label kw.label l' <
          max (labelVotes tb.label vd.label kw.label .positive)
            (max (labelVotes tb.label vd.label kw.label .negative)
              (labelVotes tb.label vd.label kw.label .neutral))) ∧
      (tb.label = .positive → vd.label = .positive → kw.label = .negative →
        l = .positive) := by
  refine ⟨_, _, _, combine_active tb vd kw s1 s2 s3 htb hvd hkw h1 h2 h3,
    ?_, ?_, ?_⟩
  · have h := (maxVoteLabel_spec
      (labelVotes tb.label vd.label kw.label .positive)
      (labelVotes tb.label vd.label kw.label .negative)
      (labelVotes tb.label vd.label kw.label .neutral)).1
    rwa [voteAt_labelVotes] at h
  · intro l' hl'
    have h := (maxVoteLabel_spec
      (labelVotes tb.label vd.label kw.label .positive)
      (labelVotes tb.label vd.label kw.label .negative)
      (labelVotes tb.label vd.label kw.label .neutral)).2 l' hl'
    rwa [voteAt_labelVotes] at h
  · intro e1 e2 e3
    rw [e1, e2, e3]
    simp [maxVoteLabel, labelVotes]
    norm_num

/-- Witness for C2 at a concrete triple with labels
(positive, positive, negative). -/
theorem C2_witness :
    ∃ s c : ℚ, ∃ l : Label,
      combine_sentiment_results
        { method := "textblob", score := some (1/2), confidence := 3/4,
          label := .positive, extra := [] }
        { method := "vader", score := some (1/4), confidence := 1/2,
          label := .positive, extra := [] }
        { method := "financial_keywords", score := some (-1), confidence := 3/10,
          label := .negative, extra := [] } =
        { method := "combined", score := s, confidence := c, label := l,
          individual := some
            ({ method := "textblob", score := some (1/2), confidence := 3/4,
               label := .positive, extra := [] },
             { method := "vader", score := some (1/4), confidence := 1/2,
               label := .positive, extra := [] },
             { method := "financial_keywords", score := some (-1),
               confidence := 3/10, label := .negative, extra := [] }) } ∧
      labelVotes .positive .positive .negative l =
        max (labelVotes .positive .positive .negative .positive)
          (max (labelVotes .positive .positive .negative .negative)
            (labelVotes .positive .positive .negative .neutral)) ∧
      (∀ l' : Label, labelOrderIdx l' < labelOrderIdx l →
        labelVotes .positive .positive .negative l' <
          max (labelVotes .positive .positive .negative .positive)
            (max (labelVotes .positive .positive .negative .negative)
              (labelVotes .positive .positive .negative .neutral))) ∧
      (Label.positive = .positive → Label.positive = .positive →
        Label.negative = .negative → l = .positive) :=
  C2_final_label_majority_vote _ _ _ (1/2) (1/4) (-1) rfl rfl rfl rfl rfl rfl

/-- C9: if every one of the three results contributes no weight (method not
in the weight table, or score `None`), the combiner returns the
neutral/zero/zero-confidence sentinel tagged `'combined'` instead of
failing. -/
theorem C9_zero_total_weight (tb vd kw : MethodResult)
    (htb : methodWeight tb.method = none ∨ tb.score = none)
    (hvd : methodWeight vd.method = none ∨ vd.score = none)
    (hkw : methodWeight kw.method = none ∨ kw.score = none) :
    combine_sentiment_results tb vd kw = emptyAnalysis "combined" := by
  unfold combine_sentiment_results
  simp only [List.foldl, combineStep_inactive _ _ htb, combineStep_inactive _ _ hvd,
    combineStep_inactive _ _ hkw]
  simp [combineInit]

/-- C4: input that is empty or whitespace-only short-circuits
`analyze_sentiment` to the fully neutral result with score 0.0, confidence
0.0, label neutral, tagged generically (`'unknown'`), independently of every
scorer (the same result for any collaborators, which are never invoked). -/
theorem C4_empty_input (o o' : Oracles) (text : String) (h : pyStrip text = "") :
    analyze_sentiment o text =
      .ok { method := "unknown", score := 0, confidence := 0,
            label := .neutral, individual := none } ∧
    analyze_sentiment o text = analyze_sentiment o' text := by
  unfold analyze_sentiment
  simp [h, emptyAnalysis]
  rfl

/-- Witness for C4 on the whitespace-only input `"  \t "`. -/
theorem C4_witness :
    analyze_sentiment
      { subUrl := id, subEmail := id, tbModel := fun _ => .error (),
        vdModel := fun _ => .error (), wordTokenize := fun _ => .ok [],
        stopWords := [] } "  \t " =
      .ok { method := "unknown", score := 0, confidence := 0,
            label := .neutral, individual := none } :=
  (C4_empty_input _
    { subUrl := id, subEmail := id, tbModel := fun _ => .error (),
      vdModel := fun _ => .error (), wordTokenize := fun _ => .ok [],
      stopWords := [] } "  \t " (by decide)).1

/-- C6 counterexample: the keyword scorer's underlying computation
(`word_tokenize`, called outside any `try`) raising does NOT yield that
method's neutral sentinel — the exception propagates out of
`analyze_financial_keywords` and out of `analyze_sentiment` to the caller,
even when both other models succeed, refuting "the exception is never
propagated to the combiner or the caller of analyze_sentiment" for the
keyword scorer. -/
theorem C6_counterexample :
    analyze_financial_keywords (fun _ => .error "tokenizer failure") [] "up" =
      .error "tokenizer failure" ∧
    analyze_sentiment
      { subUrl := id, subEmail := id, tbModel := fun _ => .ok (0, 0),
        vdModel := fun _ => .ok ⟨0, 0, 0, 0⟩,
        wordTokenize := fun _ => .error "tokenizer failure",
        stopWords := [] } "up" = .error "tokenizer failure" :=
  ⟨rfl, rfl⟩

/-- C6 (amended): an exception in the TextBlob or VADER model is absorbed as
that method's own neutral sentinel and `analyze_sentiment` still returns
normally, handing the sentinels to the combiner; an exception in the keyword
scorer's tokenizer, by contrast, is outside every `try` and propagates out of
`analyze_sentiment` to its caller. -/
theorem C6_model_failure_amended (o : Oracles) (text : String)
    (kwres : MethodResult) (e : String) (hstrip : pyStrip text ≠ "")
    (htb : o.tbModel (preprocess_text o.subUrl o.subEmail text) = .error ())
    (hvd : o.vdModel (preprocess_text o.subUrl o.subEmail text) = .error ()) :
    analyze_with_textblob (.error ()) = empty_sentiment_result "textblob" ∧
    analyze_with_vader (.error ()) = empty_sentiment_result "vader" ∧
    (analyze_financial_keywords o.wordTokenize o.stopWords
        (preprocess_text o.subUrl o.subEmail text) = .ok kwres →
      analyze_sentiment o text =
        .ok (combine_sentiment_results (empty_sentiment_result "textblob")
          (empty_sentiment_result "vader") kwres)) ∧
    (analyze_financial_keywords o.wordTokenize o.stopWords
        (preprocess_text o.subUrl o.subEmail text) = .error e →
      analyze_sentiment o text = .error e) := by
  refine ⟨rfl, rfl, ?_, ?_⟩
  · intro hkw
    unfold analyze_sentiment
    simp [hstrip, htb, hvd, hkw, analyze_with_textblob, analyze_with_vader]
  · intro hkw
    unfold analyze_sentiment
    simp [hstrip, htb, hvd, hkw, analyze_with_textblob, analyze_with_vader]

/-- Witness for the amended C6: concrete oracles whose models raise and
whose tokenizer raises; the tokenizer failure propagates to the caller. -/
theorem C6_witness :
    analyze_with_textblob (.error ()) = empty_sentiment_result "textblob" ∧
    analyze_with_vader (.error ()) = empty_sentiment_result "vader" ∧
    (analyze_financial_keywords (fun _ => .error "boom") []
        (preprocess_text id id "bad") =
          .ok (empty_sentiment_result "financial_keywords") →
      analyze_sentiment
        { subUrl := id, subEmail := id, tbModel := fun _ => .error (),
          vdModel := fun _ => .error (),
          wordTokenize := fun _ => .error "boom", stopWords := [] } "bad" =
        .ok (combine_sentiment_results (empty_sentiment_result "textblob")
          (empty_sentiment_result "vader")
          (empty_sentiment_result "financial_keywords"))) ∧
    (analyze_financial_keywords (fun _ => .error "boom") []
        (preprocess_text id id "bad") = .error "boom" →
      analyze_sentiment
        { subUrl := id, subEmail := id, tbModel := fun _ => .error (),
          vdModel := fun _ => .error (),
          wordTokenize := fun _ => .error "boom", stopWords := [] } "bad" =
        .error "boom") :=
  C6_model_failure_amended
    { subUrl := id, subEmail := id, tbModel := fun _ => .error (),
      vdModel := fun _ => .error (), wordTokenize := fun _ => .error "boom",
      stopWords := [] } "bad" (empty_sentiment_result "financial_keywords")
    "boom" (by decide) rfl rfl

/-- Witness for C9: three all-null-score results yield the combined
sentinel. -/
theorem C9_witness :
    combine_sentiment_results
      { method := "textblob", score := none, confidence := 0,
        label := .neutral, extra := [] }
      { method := "vader", score := none, confidence := 0,
        label := .neutral, extra := [] }
      { method := "financial_keywords", score := none, confidence := 0,
        label := .neutral, extra := [] } = emptyAnalysis "combined" :=
  C9_zero_total_weight _ _ _ (Or.inr rfl) (Or.inr rfl) (Or.inr rfl)

/-- C3: the keyword scorer keeps the alphabetic non-stop-word tokens of the
tokenized lowercased text and counts lexicon hits; zero total hits yields
exactly the zero-confidence neutral sentinel for `'financial_keywords'`,
otherwise score = (positive − negative)/total with label thresholds at ±0.2
and confidence min(total/10, 1). -/
theorem C3_keyword_scorer (wt : String → Except String (List String))
    (stops : List String) (text : String) (toks : List String) (p n : Nat)
    (htok : wt text.toLower = .ok toks)
    (hpn : keywordHits stops toks = (p, n)) :
    analyze_financial_keywords wt stops text =
      .ok (if p + n = 0 then empty_sentiment_result "financial_keywords"
        else
          { method := "financial_keywords"
            score := some (((p : ℚ) - (n : ℚ)) / ((p : ℚ) + (n : ℚ)))
            confidence := min (((p : ℚ) + (n : ℚ)) / 10) 1
            label :=
              if ((p : ℚ) - (n : ℚ)) / ((p : ℚ) + (n : ℚ)) > 1/5 then .positive
              else if ((p : ℚ) - (n : ℚ)) / ((p : ℚ) + (n : ℚ)) < -(1/5) then
                .negative
              else .neutral
            extra := [("positive_keywords", (p : ℚ)),
                      ("negative_keywords", (n : ℚ)),
                      ("total_keywords", ((p : ℚ) + (n : ℚ)))] }) := by
  unfold keywordHits at hpn
  simp only [analyze_financial_keywords, htok, bind, Except.bind, countKeywords_eq]
  rw [Prod.mk.injEq] at hpn
  obtain ⟨hp, hn⟩ := hpn
  simp only [hp, hn]
  by_cases h0 : p + n = 0
  · simp [h0]; rfl
  · simp only [h0, if_neg h0, reduceIte]
    push_cast
    rfl

/-- Witness for C3 with tokens ["profit", "loss", "growth", "the"] and stop
word "the": 2 positive hits, 1 negative hit. -/
theorem C3_witness :
    analyze_financial_keywords (fun _ => .ok ["profit", "loss", "growth", "the"])
      ["the"] "x" =
      .ok (if 2 + 1 = 0 then empty_sentiment_result "financial_keywords"
        else
          { method := "financial_keywords"
            score := some (((2 : ℚ) - (1 : ℚ)) / ((2 : ℚ) + (1 : ℚ)))
            confidence := min (((2 : ℚ) + (1 : ℚ)) / 10) 1
            label :=
              if ((2 : ℚ) - (1 : ℚ)) / ((2 : ℚ) + (1 : ℚ)) > 1/5 then .positive
              else if ((2 : ℚ) - (1 : ℚ)) / ((2 : ℚ) + (1 : ℚ)) < -(1/5) then
                .negative
              else .neutral
            extra := [("positive_keywords", (2 : ℚ)),
                      ("negative_keywords", (1 : ℚ)),
                      ("total_keywords", ((2 : ℚ) + (1 : ℚ)))] }) :=
  C3_keyword_scorer _ ["the"] "x" ["profit", "loss", "growth", "the"] 2 1
    rfl (by decide)

/-- C5: under the external model contracts (TextBlob polarity in [-1,1] and
subjectivity in [0,1]; VADER compound in [-1,1] and proportions in [0,1]),
every result of `analyze_sentiment` has final score in [-1,1] and final
confidence in [0,1], and each attached method result has score in [-1,1]
(when non-null), confidence in [0,1], and a label consistent with its own
method's threshold rule. -/
theorem C5_bounds (o : Oracles) (text : String)
    (htb : ∀ (s : String) (pol subj : ℚ), o.tbModel s = .ok (pol, subj) →
      -1 ≤ pol ∧ pol ≤ 1 ∧ 0 ≤ subj ∧ subj ≤ 1)
    (hvd : ∀ (s : String) (vs : VaderScores), o.vdModel s = .ok vs →
      (-1 ≤ vs.compound ∧ vs.compound ≤ 1) ∧ (0 ≤ vs.pos ∧ vs.pos ≤ 1) ∧
      (0 ≤ vs.neu ∧ vs.neu ≤ 1) ∧ (0 ≤ vs.neg ∧ vs.neg ≤ 1))
    (r : AnalysisOutput) (h : analyze_sentiment o text = .ok r) :
    (-1 ≤ r.score ∧ r.score ≤ 1) ∧ (0 ≤ r.confidence ∧ r.confidence ≤ 1) ∧
    ∀ tb vd kw : MethodResult, r.individual = some (tb, vd, kw) →
      (ScoreBounded tb ∧ LabelConsistent tb) ∧
      (ScoreBounded vd ∧ LabelConsistent vd) ∧
      (ScoreBounded kw ∧ LabelConsistent kw) := by
  by_cases hstrip : pyStrip text = ""
  · simp only [analyze_sentiment, hstrip, reduceIte] at h
    have hr : emptyAnalysis "unknown" = r := by
      simpa [pure, Except.pure] using h
    subst hr
    refine ⟨⟨by norm_num [emptyAnalysis], by norm_num [emptyAnalysis]⟩,
      ⟨by norm_num [emptyAnalysis], by norm_num [emptyAnalysis]⟩, ?_⟩
    intro tb vd kw habs
    simp [emptyAnalysis] at habs
  · cases hkw : analyze_financial_keywords o.wordTokenize o.stopWords
      (preprocess_text o.subUrl o.subEmail text) with
    | error e =>
      simp only [analyze_sentiment, hstrip, reduceIte, hkw, bind,
        Except.bind] at h
      cases h
    | ok kwres =>
      simp only [analyze_sentiment, hstrip, reduceIte, hkw, bind,
        Except.bind, pure, Except.pure, Except.ok.injEq] at h
      obtain ⟨hm1, ⟨s1, hs1⟩, hb1, hl1⟩ :=
        textblob_ok (o.tbModel (preprocess_text o.subUrl o.subEmail text))
          (fun pol subj hok =>
            htb (preprocess_text o.subUrl o.subEmail text) pol subj hok)
      obtain ⟨hm2, ⟨s2, hs2⟩, hb2, hl2⟩ :=
        vader_ok (o.vdModel (preprocess_text o.subUrl o.subEmail text))
          (fun vs hok =>
            hvd (preprocess_text o.subUrl o.subEmail text) vs hok)
      obtain ⟨hm3, ⟨s3, hs3⟩, hb3, hl3⟩ := keyword_ok _ _ _ _ hkw
      rw [combine_active _ _ _ s1 s2 s3 hm1 hm2 hm3 hs1 hs2 hs3] at h
      subst h
      obtain ⟨hS1a, hS1b⟩ := hb1.1 s1 hs1
      obtain ⟨hS2a, hS2b⟩ := hb2.1 s2 hs2
      obtain ⟨hS3a, hS3b⟩ := hb3.1 s3 hs3
      obtain ⟨hC1a, hC1b⟩ := hb1.2
      obtain ⟨hC2a, hC2b⟩ := hb2.2
      obtain ⟨hC3a, hC3b⟩ := hb3.2
      refine ⟨⟨?_, ?_⟩, ⟨?_, ?_⟩, ?_⟩
      · show -1 ≤ s1 * (2/5) + s2 * (2/5) + s3 * (1/5)
        linarith
      · show s1 * (2/5) + s2 * (2/5) + s3 * (1/5) ≤ 1
        linarith
      · show 0 ≤ (analyze_with_textblob _).confidence * (2/5) +
          (analyze_with_vader _).confidence * (2/5) + kwres.confidence * (1/5)
        linarith
      · show (analyze_with_textblob _).confidence * (2/5) +
          (analyze_with_vader _).confidence * (2/5) +
            kwres.confidence * (1/5) ≤ 1
        linarith
      · intro tb vd kw hind
        simp only [Option.some.injEq, Prod.mk.injEq] at hind
        obtain ⟨he1, he2, he3⟩ := hind
        subst he1
        subst he2
        subst he3
        exact ⟨⟨hb1, hl1⟩, ⟨hb2, hl2⟩, ⟨hb3, hl3⟩⟩

/-- Witness for C5: erroring models (their contracts hold vacuously) on a
non-empty input; the analysis combines the three per-method sentinels. -/
theorem C5_witness :
    (-1 ≤ (combine_sentiment_results (empty_sentiment_result "textblob")
        (empty_sentiment_result "vader")
        (empty_sentiment_result "financial_keywords")).score ∧
      (combine_sentiment_results (empty_sentiment_result "textblob")
        (empty_sentiment_result "vader")
        (empty_sentiment_result "financial_keywords")).score ≤ 1) ∧
    (0 ≤ (combine_sentiment_results (empty_sentiment_result "textblob")
        (empty_sentiment_result "vader")
        (empty_sentiment_result "financial_keywords")).confidence ∧
      (combine_sentiment_results (empty_sentiment_result "textblob")
        (empty_sentiment_result "vader")
        (empty_sentiment_result "financial_keywords")).confidence ≤ 1) ∧
    ∀ tb vd kw : MethodResult,
      (combine_sentiment_results (empty_sentiment_result "textblob")
        (empty_sentiment_result "vader")
        (empty_sentiment_result "financial_keywords")).individual =
          some (tb, vd, kw) →
      (ScoreBounded tb ∧ LabelConsistent tb) ∧
      (ScoreBounded vd ∧ LabelConsistent vd) ∧
      (ScoreBounded kw ∧ LabelConsistent kw) :=
  C5_bounds
    { subUrl := id, subEmail := id, tbModel := fun _ => .error (),
      vdModel := fun _ => .error (), wordTokenize := fun _ => .ok [],
      stopWords := [] } "rally"
    (fun s pol subj hok => by simp at hok)
    (fun s vs hok => by simp at hok)
    (combine_sentiment_results (empty_sentiment_result "textblob")
      (empty_sentiment_result "vader")
      (empty_sentiment_result "financial_keywords")) rfl

/-- C7 counterexample: on the input `"a # b"` (which contains no URL and no
e-mail address, so both regex substitutions leave it unchanged — modelled by
`id`, a legitimate erasure), the preprocessor output is `"a  b"`: whitespace
is collapsed BEFORE special characters are removed, so deleting `#` between
two spaces leaves two adjacent spaces, refuting the claim that the returned
string has internal whitespace collapsed to single spaces. -/
theorem C7_counterexample :
    Erasure (id : String → String) ∧
    preprocess_text id id "a # b" = "a  b" ∧
    hasAdjacentWs (preprocess_text id id "a # b").data = true :=
  ⟨fun s => List.Sublist.refl s.data, by decide, by decide⟩

/-- C7 (amended): for any erasing URL/e-mail substitutions, the preprocessor
never fails and returns a trimmed string (first and last characters are not
whitespace) containing only word characters, whitespace and `. , ! ? ; : -`,
in which every whitespace character is the single space `' '` (whitespace
runs are collapsed before special-character removal, so consecutive spaces
may reappear where removed characters separated them); empty input yields
empty output. -/
theorem C7_preprocess_amended (fu fe : String → String)
    (hfu : Erasure fu) (hfe : Erasure fe) (text : String) :
    (∀ c ∈ (preprocess_text fu fe text).data, keptChar c = true) ∧
    (∀ c ∈ (preprocess_text fu fe text).data, pyIsSpace c = true → c = ' ') ∧
    (∀ c : Char, (preprocess_text fu fe text).data.head? = some c →
      pyIsSpace c = false) ∧
    (∀ c : Char, (preprocess_text fu fe text).data.getLast? = some c →
      pyIsSpace c = false) ∧
    preprocess_text fu fe "" = "" := by
  refine ⟨?_, ?_, ?_, ?_, ?_⟩
  · intro c hc
    rw [preprocess_text_data] at hc
    exact List.of_mem_filter (mem_pyStripList _ _ hc)
  · intro c hc hs
    rw [preprocess_text_data] at hc
    exact collapseWsAux_space _ false c
      (List.mem_of_mem_filter (mem_pyStripList _ _ hc)) hs
  · intro c hc
    rw [preprocess_text_data] at hc
    exact pyStripList_head? _ _ hc
  · intro c hc
    rw [preprocess_text_data] at hc
    exact pyStripList_getLast? _ _ hc
  · have h1 : (fu "").data = [] := List.sublist_nil.mp (hfu "")
    have h2 : (fe (fu "")).data = [] := by
      have := hfe (fu "")
      rw [h1] at this
      exact List.sublist_nil.mp this
    show pyStrip (String.mk
      (((collapseWs (fe (fu ""))).data).filter keptChar)) = ""
    unfold collapseWs
    rw [h2]
    rfl

/-- C10: on any non-whitespace input on which `analyze_sentiment` returns,
all three scorers produced non-null scores, the combiner accumulated total
weight exactly 1, its zero-weight sentinel branch was not taken, and the
final score is exactly 0.4·s_textblob + 0.4·s_vader + 0.2·s_keyword (no
division). -/
theorem C10_total_weight_one (o : Oracles) (text : String) (r : AnalysisOutput)
    (hne : pyStrip text ≠ "") (h : analyze_sentiment o text = .ok r) :
    ∃ tb vd kw : MethodResult, ∃ s1 s2 s3 : ℚ,
      tb.score = some s1 ∧ vd.score = some s2 ∧ kw.score = some s3 ∧
      ([tb, vd, kw].foldl combineStep combineInit).total_weight = 1 ∧
      r = combine_sentiment_results tb vd kw ∧
      r.individual = some (tb, vd, kw) ∧
      r.method = "combined" ∧
      (∀ m : String, r ≠ emptyAnalysis m) ∧
      r.score = 2/5 * s1 + 2/5 * s2 + 1/5 * s3 := by
  cases hkw : analyze_financial_keywords o.wordTokenize o.stopWords
      (preprocess_text o.subUrl o.subEmail text) with
  | error e =>
    simp only [analyze_sentiment, hne, reduceIte, hkw, bind, Except.bind] at h
    cases h
  | ok kwres =>
    simp only [analyze_sentiment, hne, reduceIte, hkw, bind, Except.bind,
      pure, Except.pure, Except.ok.injEq] at h
    obtain ⟨hm1, s1, hs1⟩ :=
      textblob_shape (o.tbModel (preprocess_text o.subUrl o.subEmail text))
    obtain ⟨hm2, s2, hs2⟩ :=
      vader_shape (o.vdModel (preprocess_text o.subUrl o.subEmail text))
    obtain ⟨hm3, ⟨s3, hs3⟩, _, _⟩ := keyword_ok _ _ _ _ hkw
    have hca := combine_active _ _ _ s1 s2 s3 hm1 hm2 hm3 hs1 hs2 hs3
    rw [hca] at h
    subst h
    refine ⟨_, _, kwres, s1, s2, s3, hs1, hs2, hs3,
      combine_total_weight_one _ _ _ s1 s2 s3 hm1 hm2 hm3 hs1 hs2 hs3,
      hca.symm, rfl, rfl, ?_, ?_⟩
    · intro m heq
      simp [emptyAnalysis, AnalysisOutput.mk.injEq] at heq
    · show s1 * (2/5) + s2 * (2/5) + s3 * (1/5) =
        2/5 * s1 + 2/5 * s2 + 1/5 * s3
      ring

/-- Witness for C10: erroring models on the non-empty input `"up"`; the
pipeline returns the combination of the three per-method sentinels. -/
theorem C10_witness :
    ∃ tb vd kw : MethodResult, ∃ s1 s2 s3 : ℚ,
      tb.score = some s1 ∧ vd.score = some s2 ∧ kw.score = some s3 ∧
      ([tb, vd, kw].foldl combineStep combineInit).total_weight = 1 ∧
      (combine_sentiment_results (empty_sentiment_result "textblob")
          (empty_sentiment_result "vader")
          (empty_sentiment_result "financial_keywords")) =
        combine_sentiment_results tb vd kw ∧
      (combine_sentiment_results (empty_sentiment_result "textblob")
          (empty_sentiment_result "vader")
          (empty_sentiment_result "financial_keywords")).individual =
        some (tb, vd, kw) ∧
      (combine_sentiment_results (empty_sentiment_result "textblob")
          (empty_sentiment_result "vader")
          (empty_sentiment_result "financial_keywords")).method = "combined" ∧
      (∀ m : String,
        (combine_sentiment_results (empty_sentiment_result "textblob")
          (empty_sentiment_result "vader")
          (empty_sentiment_result "financial_keywords")) ≠ emptyAnalysis m) ∧
      (combine_sentiment_results (empty_sentiment_result "textblob")
          (empty_sentiment_result "vader")
          (empty_sentiment_result "financial_keywords")).score =
        2/5 * s1 + 2/5 * s2 + 1/5 * s3 :=
  C10_total_weight_one
    { subUrl := id, subEmail := id, tbModel := fun _ => .error (),
      vdModel := fun _ => .error (), wordTokenize := fun _ => .ok [],
      stopWords := [] } "up" _ (by decide) rfl

/-- C8: entry `i` of `analyze_batch` is exactly the result of
`analyze_sentiment` on text `i` (with `text_index` `i`): a success is stored
verbatim with no error, an exception at one index is replaced by the
zero-confidence sentinel tagged `'error'` carrying the message, and entry `i`
depends only on text `i`, so failures elsewhere leave it unchanged. -/
theorem C8_batch (o : Oracles) (texts : List String) (i : Nat) (t : String)
    (ht : texts[i]? = some t) :
    (analyze_batch o texts).length = texts.length ∧
    (analyze_batch o texts)[i]? = some (batchItem o i t) ∧
    (∀ r : AnalysisOutput, analyze_sentiment o t = .ok r →
      (analyze_batch o texts)[i]? =
        some { text_index := i, result := r, error := none }) ∧
    (∀ e : String, analyze_sentiment o t = .error e →
      (analyze_batch o texts)[i]? =
        some { text_index := i, result := emptyAnalysis "error",
               error := some e }) ∧
    (∀ texts' : List String, texts'[i]? = some t →
      (analyze_batch o texts')[i]? = (analyze_batch o texts)[i]?) := by
  have hget : (analyze_batch o texts)[i]? = some (batchItem o i t) := by
    unfold analyze_batch
    rw [analyzeBatchFrom_getElem?, ht]
    simp
  refine ⟨analyzeBatchFrom_length o texts 0, hget, ?_, ?_, ?_⟩
  · intro r hr
    rw [hget]
    unfold batchItem
    rw [hr]
  · intro e he
    rw [hget]
    unfold batchItem
    rw [he]
  · intro texts' ht'
    rw [hget]
    unfold analyze_batch
    rw [analyzeBatchFrom_getElem?, ht']
    simp

/-- Witness for C8 at index 1 of a two-text batch. -/
theorem C8_witness :
    (analyze_batch
      { subUrl := id, subEmail := id, tbModel := fun _ => .error (),
        vdModel := fun _ => .error (), wordTokenize := fun _ => .ok [],
        stopWords := [] } ["", "up"]).length = (["", "up"] : List String).length ∧
    (analyze_batch
      { subUrl := id, subEmail := id, tbModel := fun _ => .error (),
        vdModel := fun _ => .error (), wordTokenize := fun _ => .ok [],
        stopWords := [] } ["", "up"])[1]? =
      some (batchItem
        { subUrl := id, subEmail := id, tbModel := fun _ => .error (),
          vdModel := fun _ => .error (), wordTokenize := fun _ => .ok [],
          stopWords := [] } 1 "up") ∧
    (∀ r : AnalysisOutput, analyze_sentiment
        { subUrl := id, subEmail := id, tbModel := fun _ => .error (),
          vdModel := fun _ => .error (), wordTokenize := fun _ => .ok [],
          stopWords := [] } "up" = .ok r →
      (analyze_batch
        { subUrl := id, subEmail := id, tbModel := fun _ => .error (),
          vdModel := fun _ => .error (), wordTokenize := fun _ => .ok [],
          stopWords := [] } ["", "up"])[1]? =
        some { text_index := 1, result := r, error := none }) ∧
    (∀ e : String, analyze_sentiment
        { subUrl := id, subEmail := id, tbModel := fun _ => .error (),
          vdModel := fun _ => .error (), wordTokenize := fun _ => .ok [],
          stopWords := [] } "up" = .error e →
      (analyze_batch
        { subUrl := id, subEmail := id, tbModel := fun _ => .error (),
          vdModel := fun _ => .error (), wordTokenize := fun _ => .ok [],
          stopWords := [] } ["", "up"])[1]? =
        some { text_index := 1, result := emptyAnalysis "error",
               error := some e }) ∧
    (∀ texts' : List String, texts'[1]? = some "up" →
      (analyze_batch
        { subUrl := id, subEmail := id, tbModel := fun _ => .error (),
          vdModel := fun _ => .error (), wordTokenize := fun _ => .ok [],
          stopWords := [] } texts')[1]? =
      (analyze_batch
        { subUrl := id, subEmail := id, tbModel := fun _ => .error (),
          vdModel := fun _ => .error (), wordTokenize := fun _ => .ok [],
          stopWords := [] } ["", "up"])[1]?) :=
  C8_batch _ ["", "up"] 1 "up" rfl

/-- Witness for the amended C7, with identity erasures on a concrete text. -/
theorem C7_witness :
    (∀ c ∈ (preprocess_text id id " Gains!! up  5% ").data, keptChar c = true) ∧
    (∀ c ∈ (preprocess_text id id " Gains!! up  5% ").data,
      pyIsSpace c = true → c = ' ') ∧
    (∀ c : Char, (preprocess_text id id " Gains!! up  5% ").data.head? = some c →
      pyIsSpace c = false) ∧
    (∀ c : Char,
      (preprocess_text id id " Gains!! up  5% ").data.getLast? = some c →
      pyIsSpace c = false) ∧
    preprocess_text id id "" = "" :=
  C7_preprocess_amended id id (fun s => List.Sublist.refl s.data)
    (fun s => List.Sublist.refl s.data) " Gains!! up  5% "

end SentimentFinance
